import Mathlib

/-!
# Verification of the `EarlyAllocator` bump allocator

Shallow embedding of `src/arceos/modules/bump_allocator/src/lib.rs`.

`usize` values are modelled as `Nat`; every arithmetic operation that the
Rust source performs without a `checked_*` call is wrapped explicitly with
`% 2 ^ 64` (release-mode two's-complement semantics), and the `checked_*`
operations return `Option Nat` exactly where the source uses them.
-/

namespace BumpAllocator

/-- The word modulus of the 64-bit `usize` type. -/
def U64 : Nat := 2 ^ 64

/-- Bitwise complement on 64-bit words: for `x < U64` this is the
two's-complement `!x` of the Rust source. -/
def not64 (x : Nat) : Nat := (U64 - 1) - x

/-- Wrapping decrement `x - 1` on a 64-bit word (`x < U64`):
models the unchecked `- 1` in `align_up` / `align_down`. -/
def wsub1 (x : Nat) : Nat := (x + (U64 - 1)) % U64

/-- `usize::checked_add`. -/
def checked_add (x y : Nat) : Option Nat :=
  if x + y < U64 then some (x + y) else none

/-- `usize::checked_sub`. -/
def checked_sub (x y : Nat) : Option Nat :=
  if y ≤ x then some (x - y) else none

/-- `usize::checked_mul`. -/
def checked_mul (x y : Nat) : Option Nat :=
  if x * y < U64 then some (x * y) else none

/-- Wrapping subtraction `x - y` on 64-bit words (`x, y < U64`):
models the unchecked subtractions in the introspection queries. -/
def usub (x y : Nat) : Nat := (x + (U64 - y)) % U64

/-- The allocator state: `struct EarlyAllocator<const PAGE_SIZE: usize>`.
All five cursors/counters plus the range bounds, as in the source. -/
structure EarlyAllocator where
  start : Nat
  «end» : Nat
  b_pos : Nat
  p_pos : Nat
  count : Nat
  page_count : Nat
deriving DecidableEq, Repr

/-- `core::alloc::Layout`: a size and an alignment. -/
structure Layout where
  size : Nat
  align : Nat
deriving DecidableEq, Repr

/-- `allocator::AllocError` (the two variants the source uses). -/
inductive AllocError where
  | NoMemory
  | InvalidParam
deriving DecidableEq, Repr

instance : DecidableEq (Except AllocError Nat) := fun
  | .ok a, .ok b =>
    if h : a = b then .isTrue (by rw [h]) else .isFalse (fun c => h (by cases c; rfl))
  | .error a, .error b =>
    if h : a = b then .isTrue (by rw [h]) else .isFalse (fun c => h (by cases c; rfl))
  | .ok _, .error _ => .isFalse (fun c => by cases c)
  | .error _, .ok _ => .isFalse (fun c => by cases c)

/-- `EarlyAllocator::new()`: the zeroed, unusable configuration. -/
def new : EarlyAllocator :=
  { start := 0, «end» := 0, b_pos := 0, p_pos := 0, count := 0, page_count := 0 }

/-- `fn align_up(addr, align) = (addr + align - 1) & !(align - 1)`,
with both the addition and the decrements wrapping on 64 bits. -/
def align_up (addr align : Nat) : Nat :=
  ((addr + align + (U64 - 1)) % U64) &&& not64 (wsub1 align)

/-- `fn align_down(addr, align) = addr & !(align - 1)`. -/
def align_down (addr align : Nat) : Nat :=
  addr &&& not64 (wsub1 align)

/-- `BaseAllocator::init(start, size)`: overwrites every field of the
state, so it is modelled as a constructor.  The unchecked `start + size`
wraps on 64 bits. -/
def init (start size : Nat) : EarlyAllocator :=
  { start := start
    «end» := (start + size) % U64
    b_pos := start
    p_pos := (start + size) % U64
    count := 0
    page_count := 0 }

/-- `BaseAllocator::add_memory`: always fails with `NoMemory`, state
untouched. -/
def add_memory (s : EarlyAllocator) (_start _size : Nat) :
    EarlyAllocator × Except AllocError Unit :=
  (s, .error .NoMemory)

/-- `ByteAllocator::alloc(layout)`.  Mirrors the source line by line:
align the cursor up, `checked_add` the size, bounds-check against
`p_pos`, commit, and only then run the `NonNull::new` null check on the
returned address. -/
def alloc (s : EarlyAllocator) (layout : Layout) :
    EarlyAllocator × Except AllocError Nat :=
  let size := layout.size
  let align := layout.align
  let aligned_addr := align_up s.b_pos align
  match checked_add aligned_addr size with
  | none => (s, .error .NoMemory)
  | some new_b_pos =>
    if new_b_pos > s.p_pos then
      (s, .error .NoMemory)
    else
      let s' := { s with b_pos := new_b_pos, count := (s.count + 1) % U64 }
      if aligned_addr = 0 then (s', .error .NoMemory) else (s', .ok aligned_addr)

/-- `ByteAllocator::dealloc`: position and layout are ignored; the
counter is decremented when nonzero and the byte cursor snaps back to
`start` when it reaches zero. -/
def dealloc (s : EarlyAllocator) (_pos : Nat) (_layout : Layout) : EarlyAllocator :=
  if s.count > 0 then
    if s.count - 1 = 0 then
      { s with count := s.count - 1, b_pos := s.start }
    else
      { s with count := s.count - 1 }
  else
    s

/-- `ByteAllocator::total_bytes = end - start`. -/
def total_bytes (s : EarlyAllocator) : Nat := usub s.«end» s.start

/-- `ByteAllocator::used_bytes = b_pos - start`. -/
def used_bytes (s : EarlyAllocator) : Nat := usub s.b_pos s.start

/-- `ByteAllocator::available_bytes = p_pos - b_pos`. -/
def available_bytes (s : EarlyAllocator) : Nat := usub s.p_pos s.b_pos

/-- `PageAllocator::alloc_pages(num_pages, align_pow2)` with the
`PAGE_SIZE` const generic as an explicit first parameter. -/
def alloc_pages (PAGE_SIZE : Nat) (s : EarlyAllocator) (num_pages align_pow2 : Nat) :
    EarlyAllocator × Except AllocError Nat :=
  match checked_mul num_pages PAGE_SIZE with
  | none => (s, .error .InvalidParam)
  | some total =>
    match checked_sub s.p_pos total with
    | none => (s, .error .NoMemory)
    | some max_start =>
      let aligned_start := align_down max_start align_pow2
      if aligned_start < s.b_pos then
        (s, .error .NoMemory)
      else
        ({ s with p_pos := aligned_start, page_count := (s.page_count + 1) % U64 },
          .ok aligned_start)

/-- `PageAllocator::dealloc_pages`: arguments ignored; counter
decremented when nonzero, page cursor snaps back to `end` at zero. -/
def dealloc_pages (s : EarlyAllocator) (_pos _num_pages : Nat) : EarlyAllocator :=
  if s.page_count > 0 then
    if s.page_count - 1 = 0 then
      { s with page_count := s.page_count - 1, p_pos := s.«end» }
    else
      { s with page_count := s.page_count - 1 }
  else
    s

/-- `PageAllocator::total_pages = (end - start) / PAGE_SIZE`. -/
def total_pages (PAGE_SIZE : Nat) (s : EarlyAllocator) : Nat :=
  usub s.«end» s.start / PAGE_SIZE

/-- `PageAllocator::used_pages = (end - p_pos) / PAGE_SIZE`. -/
def used_pages (PAGE_SIZE : Nat) (s : EarlyAllocator) : Nat :=
  usub s.«end» s.p_pos / PAGE_SIZE

/-- `PageAllocator::available_pages = (p_pos - b_pos) / PAGE_SIZE`. -/
def available_pages (PAGE_SIZE : Nat) (s : EarlyAllocator) : Nat :=
  usub s.p_pos s.b_pos / PAGE_SIZE

/-- The byte-allocation algorithm as the specification words it, amended
with the commit-then-null-check behaviour of the code: compute
`aligned_addr = round_up(b_pos, align)` and `candidate_end = aligned_addr
+ size`; fail with out-of-memory on overflow of the addition or when
`candidate_end > p_pos`; otherwise commit the cursor and the counter, and
return `aligned_addr` — except that a zero `aligned_addr` is reported as
out-of-memory even though the commit has already happened. -/
def allocSpec (s : EarlyAllocator) (layout : Layout) :
    EarlyAllocator × Except AllocError Nat :=
  let aligned_addr := align_up s.b_pos layout.align
  let candidate_end := aligned_addr + layout.size
  if U64 ≤ candidate_end then (s, .error .NoMemory)
  else if s.p_pos < candidate_end then (s, .error .NoMemory)
  else
    let committed := { s with b_pos := candidate_end, count := (s.count + 1) % U64 }
    if aligned_addr = 0 then (committed, .error .NoMemory)
    else (committed, .ok aligned_addr)

/-- The page-allocation algorithm as the specification words it:
`total = num_pages * PAGE_SIZE` checked for overflow (invalid-parameter),
`max_start = p_pos - total` checked for underflow (out-of-memory),
align `max_start` downward, fail with out-of-memory when the aligned
start is below `b_pos`, otherwise commit and return it. -/
def alloc_pagesSpec (PAGE_SIZE : Nat) (s : EarlyAllocator) (num_pages align_pow2 : Nat) :
    EarlyAllocator × Except AllocError Nat :=
  let total := num_pages * PAGE_SIZE
  if U64 ≤ total then (s, .error .InvalidParam)
  else if s.p_pos < total then (s, .error .NoMemory)
  else
    let aligned_start := align_down (s.p_pos - total) align_pow2
    if aligned_start < s.b_pos then (s, .error .NoMemory)
    else
      ({ s with p_pos := aligned_start, page_count := (s.page_count + 1) % U64 },
        .ok aligned_start)

/-- The state invariant claimed by the specification: ordered cursors
and the two counter-reset implications. -/
def Inv (s : EarlyAllocator) : Prop :=
  s.start ≤ s.b_pos ∧ s.b_pos ≤ s.p_pos ∧ s.p_pos ≤ s.«end» ∧
    (s.count = 0 → s.b_pos = s.start) ∧ (s.page_count = 0 → s.p_pos = s.«end»)

instance (s : EarlyAllocator) : Decidable (Inv s) := by
  unfold Inv; infer_instance

/-- One call of the allocator's mutating/query interface (everything
except `init`). -/
inductive Op where
  | alloc (layout : Layout)
  | dealloc (pos : Nat) (layout : Layout)
  | alloc_pages (num_pages align_pow2 : Nat)
  | dealloc_pages (pos num_pages : Nat)
  | add_memory (start size : Nat)
  | query
deriving DecidableEq, Repr

/-- State after one call (results discarded; the query operations do
not mutate). -/
def applyOp (PAGE_SIZE : Nat) (s : EarlyAllocator) : Op → EarlyAllocator
  | .alloc l => (alloc s l).1
  | .dealloc p l => dealloc s p l
  | .alloc_pages n a => (alloc_pages PAGE_SIZE s n a).1
  | .dealloc_pages p n => dealloc_pages s p n
  | .add_memory a b => (add_memory s a b).1
  | .query => s

/-- State after a sequence of calls. -/
def applyOps (PAGE_SIZE : Nat) (s : EarlyAllocator) : List Op → EarlyAllocator
  | [] => s
  | op :: ops => applyOps PAGE_SIZE (applyOp PAGE_SIZE s op) ops

/-- Side conditions under which a call performs no wrapping 64-bit
arithmetic: a byte allocation needs a power-of-two alignment whose
round-up does not wrap past `2^64` and headroom in the call counter; a
page allocation needs headroom in its call counter. -/
def GoodOp (s : EarlyAllocator) : Op → Prop
  | .alloc l => (∃ k, k ≤ 64 ∧ l.align = 2 ^ k) ∧ s.b_pos + l.align ≤ U64 ∧
      s.count + 1 < U64
  | .alloc_pages _ _ => s.page_count + 1 < U64
  | _ => True

/-- `GoodOp` holding at every intermediate state of a sequence. -/
def GoodOps (PAGE_SIZE : Nat) (s : EarlyAllocator) : List Op → Prop
  | [] => True
  | op :: ops => GoodOp s op ∧ GoodOps PAGE_SIZE (applyOp PAGE_SIZE s op) ops

/-- Is the call one of the two deallocation entry points? -/
def isDealloc : Op → Bool
  | .dealloc _ _ => true
  | .dealloc_pages _ _ => true
  | _ => false

/-- `[a, b)` and `[c, d)` do not overlap. -/
def RangesDisjoint (a b c d : Nat) : Prop := b ≤ c ∨ d ≤ a

instance (a b c d : Nat) : Decidable (RangesDisjoint a b c d) := by
  unfold RangesDisjoint; infer_instance

/-- State after a sequence of byte allocations (results discarded). -/
def runAllocs (s : EarlyAllocator) : List Layout → EarlyAllocator
  | [] => s
  | l :: ls => runAllocs (alloc s l).1 ls

/-- Every byte allocation in the sequence succeeds (returns `Ok`). -/
def AllOk (s : EarlyAllocator) : List Layout → Prop
  | [] => True
  | l :: ls => (∃ a, (alloc s l).2 = .ok a) ∧ AllOk (alloc s l).1 ls

/-- The concrete one-byte-zone state reached in the repeated-allocation
run: range `[1, 3)`, byte cursor at 2, call counter `c`. -/
def repState (c : Nat) : EarlyAllocator :=
  { start := 1, «end» := 3, b_pos := 2, p_pos := 3, count := c, page_count := 0 }

/-- State after a sequence of byte deallocations with the given
(ignored) position/layout arguments. -/
def runDeallocs (s : EarlyAllocator) : List (Nat × Layout) → EarlyAllocator
  | [] => s
  | p :: ps => runDeallocs (dealloc s p.1 p.2) ps

end BumpAllocator

namespace BumpAllocator

/-- C9: `add_memory(start, size)` always returns the out-of-memory error
and leaves the allocator state unchanged, for every state and argument
pair. -/
theorem C9_add_memory_always_fails (s : EarlyAllocator) (start size : Nat) :
    add_memory s start size = (s, .error .NoMemory) :=
  rfl

/-- C8: from `init(0x1000, 0x2000)` with `PAGE_SIZE = 0x1000`:
`alloc(16, 8)` returns `0x1000` and `used_bytes() = 16`; then
`alloc_pages(1, 0x1000)` returns `0x2000` and `used_pages() = 1`; then
`alloc(0x2000, 1)` fails. -/
theorem C8_scenario :
    (alloc (init 0x1000 0x2000) ⟨16, 8⟩).2 = .ok 0x1000 ∧
    used_bytes (alloc (init 0x1000 0x2000) ⟨16, 8⟩).1 = 16 ∧
    (alloc_pages 0x1000 (alloc (init 0x1000 0x2000) ⟨16, 8⟩).1 1 0x1000).2 = .ok 0x2000 ∧
    used_pages 0x1000
      (alloc_pages 0x1000 (alloc (init 0x1000 0x2000) ⟨16, 8⟩).1 1 0x1000).1 = 1 ∧
    (alloc (alloc_pages 0x1000 (alloc (init 0x1000 0x2000) ⟨16, 8⟩).1 1 0x1000).1
        ⟨0x2000, 1⟩).2 = .error .NoMemory := by
  decide

/-- C7: whenever `num_pages * PAGE_SIZE` overflows `usize`,
`alloc_pages` returns the invalid-parameter error (a different
constructor from out-of-memory) and leaves the state unchanged. -/
theorem C7_page_overflow_invalid_param (PAGE_SIZE : Nat) (s : EarlyAllocator)
    (num_pages align_pow2 : Nat) (h : U64 ≤ num_pages * PAGE_SIZE) :
    alloc_pages PAGE_SIZE s num_pages align_pow2 = (s, .error .InvalidParam) ∧
      AllocError.InvalidParam ≠ AllocError.NoMemory := by
  refine ⟨?_, by intro c; cases c⟩
  unfold alloc_pages checked_mul
  rw [if_neg (Nat.not_lt.mpr h)]

/-- Witness for C7 at `PAGE_SIZE = 2^32`, `num_pages = 2^32`. -/
theorem C7_page_overflow_invalid_param_witness :
    alloc_pages (2 ^ 32) new (2 ^ 32) 1 = (new, .error .InvalidParam) :=
  (C7_page_overflow_invalid_param (2 ^ 32) new (2 ^ 32) 1 (by norm_num [U64])).1

/-- C10: when `round_up(b_pos, align)` is zero and the candidate end
neither overflows nor exceeds `p_pos`, `alloc` still commits the new
cursor and counter but reports out-of-memory — the null-address failure
is not atomic. -/
theorem C10_null_failure_not_atomic (s : EarlyAllocator) (l : Layout)
    (h0 : align_up s.b_pos l.align = 0) (h1 : l.size < U64) (h2 : l.size ≤ s.p_pos) :
    alloc s l =
      ({ s with b_pos := l.size, count := (s.count + 1) % U64 }, .error .NoMemory) := by
  simp [alloc, checked_add, h0, h1, Nat.not_lt.mpr h2]

/-- Witness for C10 at the zero-initialized allocator `new()` with a
zero-size, align-1 layout. -/
theorem C10_null_failure_not_atomic_witness :
    alloc new ⟨0, 1⟩ =
      ({ start := 0, «end» := 0, b_pos := 0, p_pos := 0, count := 1, page_count := 0 },
        .error .NoMemory) := by
  have h := C10_null_failure_not_atomic new ⟨0, 1⟩ (by decide) (by decide) (by decide)
  exact h

/-- C3: `alloc_pages` coincides, on every state and argument, with the
step-by-step description in the specification (checked multiply to
invalid-parameter, checked subtract to out-of-memory, downward
alignment, encroachment check, then commit). -/
theorem C3_alloc_pages_refines_spec (PAGE_SIZE : Nat) (s : EarlyAllocator)
    (num_pages align_pow2 : Nat) :
    alloc_pages PAGE_SIZE s num_pages align_pow2 =
      alloc_pagesSpec PAGE_SIZE s num_pages align_pow2 := by
  simp only [alloc_pages, alloc_pagesSpec, checked_mul, checked_sub]
  rcases Nat.lt_or_ge (num_pages * PAGE_SIZE) U64 with hlt | hge
  · simp only [if_pos hlt, if_neg (Nat.not_le.mpr hlt)]
    rcases le_or_lt (num_pages * PAGE_SIZE) s.p_pos with hle | hgt
    · simp only [if_pos hle, if_neg (Nat.not_lt.mpr hle)]
    · simp only [if_neg (Nat.not_le.mpr hgt), if_pos hgt]
  · simp only [if_neg (Nat.not_lt.mpr hge), if_pos hge]

/-- C2 (counterexample to the claim as stated): at the zero state with a
zero-size, align-1 layout, the round-up address is 0, the addition does
not overflow and the candidate end does not exceed `p_pos`, yet `alloc`
does not return the aligned address. -/
theorem C2_cex_null_return :
    align_up new.b_pos 1 = 0 ∧
    align_up new.b_pos 1 + 0 < U64 ∧
    align_up new.b_pos 1 + 0 ≤ new.p_pos ∧
    (alloc new ⟨0, 1⟩).2 ≠ .ok (align_up new.b_pos 1) := by
  decide

/-- C2 (amended): for a power-of-two alignment, `alloc` coincides with
the claim's description once the zero-address exception is added: it
computes `aligned_addr` and `candidate_end`, fails without state change
on overflow or when `candidate_end > p_pos`, otherwise commits the
cursor and counter and returns `aligned_addr` — except that a zero
`aligned_addr` is reported as out-of-memory after the commit. -/
theorem C2_alloc_refines_spec (s : EarlyAllocator) (l : Layout)
    (h : ∃ k, l.align = 2 ^ k) :
    alloc s l = allocSpec s l := by
  clear h
  simp only [alloc, allocSpec, checked_add]
  rcases Nat.lt_or_ge (align_up s.b_pos l.align + l.size) U64 with hlt | hge
  · simp only [if_pos hlt, if_neg (Nat.not_le.mpr hlt)]
  · simp only [if_neg (Nat.not_lt.mpr hge), if_pos hge]

/-- Witness for C2 at the scenario state `init(0x1000, 0x2000)` with
layout `{size 16, align 8}`. -/
theorem C2_alloc_refines_spec_witness :
    alloc (init 0x1000 0x2000) ⟨16, 8⟩ = allocSpec (init 0x1000 0x2000) ⟨16, 8⟩ :=
  C2_alloc_refines_spec (init 0x1000 0x2000) ⟨16, 8⟩ ⟨3, rfl⟩

theorem U64_eq : U64 = 2 ^ 64 := rfl

theorem U64_pos : 0 < U64 := by decide

/-- Masking a 64-bit value with the high mask `2^64 - 2^k` clears its
`k` low bits, i.e. rounds it down to a multiple of `2^k`. -/
theorem and_himask_eq (x k : Nat) (hx : x < 2 ^ 64) (hk : k ≤ 64) :
    x &&& (2 ^ 64 - 2 ^ k) = x - x % 2 ^ k := by
  have hsplit : (2 : Nat) ^ k * 2 ^ (64 - k) = 2 ^ 64 := by
    rw [← pow_add]
    congr 1
    omega
  have hmask : (2 : Nat) ^ 64 - 2 ^ k = 2 ^ k * (2 ^ (64 - k) - 1) := by
    rw [Nat.mul_sub_one, hsplit]
  have hdm := Nat.div_add_mod x (2 ^ k)
  have hdivform : x - x % 2 ^ k = 2 ^ k * (x / 2 ^ k) := by omega
  rw [hmask, hdivform]
  apply Nat.eq_of_testBit_eq
  intro j
  rw [Nat.testBit_and, Nat.testBit_mul_pow_two, Nat.testBit_mul_pow_two,
    Nat.testBit_two_pow_sub_one, ← Nat.shiftRight_eq_div_pow, Nat.testBit_shiftRight]
  by_cases hjk : k ≤ j
  · have hidx : k + (j - k) = j := by omega
    rw [hidx]
    by_cases hj64 : j < 64
    · have hlt : j - k < 64 - k := by omega
      simp [ge_iff_le, hjk, hlt]
    · have hxj : x.testBit j = false := by
        apply Nat.testBit_lt_two_pow
        exact lt_of_lt_of_le hx (Nat.pow_le_pow_right (by norm_num) (by omega))
      have hnlt : ¬ (j - k < 64 - k) := by omega
      simp [ge_iff_le, hjk, hnlt, hxj]
  · simp [ge_iff_le, hjk]

/-- Closed form of the source's `align_up` at a power-of-two alignment
whose computation does not wrap: round `addr + 2^k - 1` down to a
multiple of `2^k`. -/
theorem align_up_two_pow (addr k : Nat) (hk : k ≤ 64) (h : addr + 2 ^ k ≤ 2 ^ 64) :
    align_up addr (2 ^ k) =
      (addr + 2 ^ k - 1) - (addr + 2 ^ k - 1) % 2 ^ k := by
  have hkpos : 0 < (2 : Nat) ^ k := Nat.two_pow_pos k
  have h64 : (2 : Nat) ^ k ≤ 2 ^ 64 := Nat.pow_le_pow_right (by norm_num) hk
  have h1 : (addr + 2 ^ k + (U64 - 1)) % U64 = addr + 2 ^ k - 1 := by
    have he : addr + 2 ^ k + (U64 - 1) = (addr + 2 ^ k - 1) + U64 := by
      simp only [U64_eq]
      omega
    rw [he, Nat.add_mod_right, Nat.mod_eq_of_lt (by simp only [U64_eq]; omega)]
  have h2 : wsub1 (2 ^ k) = 2 ^ k - 1 := by
    unfold wsub1
    have he : 2 ^ k + (U64 - 1) = (2 ^ k - 1) + U64 := by
      simp only [U64_eq]
      omega
    rw [he, Nat.add_mod_right, Nat.mod_eq_of_lt (by simp only [U64_eq]; omega)]
  have h3 : not64 (2 ^ k - 1) = 2 ^ 64 - 2 ^ k := by
    unfold not64
    simp only [U64_eq]
    omega
  unfold align_up
  rw [h1, h2, h3]
  exact and_himask_eq _ k (by omega) hk

/-- At a power-of-two alignment with no wrap, `align_up` never moves the
address down. -/
theorem le_align_up_two_pow (addr k : Nat) (hk : k ≤ 64) (h : addr + 2 ^ k ≤ 2 ^ 64) :
    addr ≤ align_up addr (2 ^ k) := by
  rw [align_up_two_pow addr k hk h]
  have hkpos : 0 < (2 : Nat) ^ k := Nat.two_pow_pos k
  have hmod : (addr + 2 ^ k - 1) % 2 ^ k < 2 ^ k := Nat.mod_lt _ hkpos
  omega

/-- `align_down` never moves the address up. -/
theorem align_down_le (addr align : Nat) : align_down addr align ≤ addr :=
  Nat.and_le_left

/-- `alloc` either fails leaving the state unchanged (overflow or
insufficient gap), or commits the aligned candidate end and bumps the
call counter. -/
theorem alloc_cases (s : EarlyAllocator) (l : Layout) :
    (alloc s l = (s, .error .NoMemory) ∧
      (U64 ≤ align_up s.b_pos l.align + l.size ∨
        s.p_pos < align_up s.b_pos l.align + l.size)) ∨
    ((alloc s l).1 =
        { s with b_pos := align_up s.b_pos l.align + l.size,
                 count := (s.count + 1) % U64 } ∧
      align_up s.b_pos l.align + l.size < U64 ∧
      align_up s.b_pos l.align + l.size ≤ s.p_pos) := by
  by_cases hov : align_up s.b_pos l.align + l.size < U64
  · by_cases hfit : align_up s.b_pos l.align + l.size > s.p_pos
    · refine Or.inl ⟨?_, Or.inr hfit⟩
      simp only [alloc, checked_add, if_pos hov, if_pos hfit]
    · refine Or.inr ⟨?_, hov, Nat.not_lt.mp hfit⟩
      by_cases hz : align_up s.b_pos l.align = 0
      · simp only [alloc, checked_add, if_pos hov, if_neg hfit, if_pos hz]
      · simp only [alloc, checked_add, if_pos hov, if_neg hfit, if_neg hz]
  · refine Or.inl ⟨?_, Or.inl (Nat.not_lt.mp hov)⟩
    simp only [alloc, checked_add, if_neg hov]

/-- A successful `alloc` returned the aligned cursor, fit below
`p_pos`, and committed exactly the candidate end and counter bump. -/
theorem alloc_ok (s : EarlyAllocator) (l : Layout) (a : Nat)
    (h : (alloc s l).2 = .ok a) :
    a = align_up s.b_pos l.align ∧ a + l.size < U64 ∧ a + l.size ≤ s.p_pos ∧
      alloc s l =
        ({ s with b_pos := a + l.size, count := (s.count + 1) % U64 }, .ok a) := by
  revert h
  by_cases hov : align_up s.b_pos l.align + l.size < U64
  · by_cases hfit : align_up s.b_pos l.align + l.size > s.p_pos
    · simp only [alloc, checked_add, if_pos hov, if_pos hfit]
      intro h
      simp at h
    · by_cases hz : align_up s.b_pos l.align = 0
      · simp only [alloc, checked_add, if_pos hov, if_neg hfit, if_pos hz]
        intro h
        simp at h
      · simp only [alloc, checked_add, if_pos hov, if_neg hfit, if_neg hz]
        intro h
        have ha : align_up s.b_pos l.align = a := by simpa using h
        rw [← ha]
        exact ⟨rfl, hov, Nat.not_lt.mp hfit, rfl⟩
  · simp only [alloc, checked_add, if_neg hov]
    intro h
    simp at h

/-- `alloc_pages` either leaves the state unchanged, or commits the
downward-aligned start (which the guard has checked to lie at or above
`b_pos`) and bumps the page call counter. -/
theorem alloc_pages_cases (P : Nat) (s : EarlyAllocator) (n a : Nat) :
    (alloc_pages P s n a).1 = s ∨
    ((alloc_pages P s n a).1 =
        { s with p_pos := align_down (s.p_pos - n * P) a,
                 page_count := (s.page_count + 1) % U64 } ∧
      n * P ≤ s.p_pos ∧ s.b_pos ≤ align_down (s.p_pos - n * P) a) := by
  by_cases h1 : n * P < U64
  · by_cases h2 : n * P ≤ s.p_pos
    · by_cases h3 : align_down (s.p_pos - n * P) a < s.b_pos
      · refine Or.inl ?_
        simp only [alloc_pages, checked_mul, checked_sub, if_pos h1, if_pos h2, if_pos h3]
      · refine Or.inr ⟨?_, h2, Nat.not_lt.mp h3⟩
        simp only [alloc_pages, checked_mul, checked_sub, if_pos h1, if_pos h2, if_neg h3]
    · refine Or.inl ?_
      simp only [alloc_pages, checked_mul, checked_sub, if_pos h1, if_neg h2]
  · refine Or.inl ?_
    simp only [alloc_pages, checked_mul, checked_sub, if_neg h1]

/-- A successful `alloc_pages` returned the committed downward-aligned
start, which lies at or above `b_pos` and at or below the old
`p_pos`. -/
theorem alloc_pages_ok (P : Nat) (s : EarlyAllocator) (n a p : Nat)
    (h : (alloc_pages P s n a).2 = .ok p) :
    p = align_down (s.p_pos - n * P) a ∧ n * P ≤ s.p_pos ∧ s.b_pos ≤ p ∧
      alloc_pages P s n a =
        ({ s with p_pos := p, page_count := (s.page_count + 1) % U64 }, .ok p) := by
  revert h
  by_cases h1 : n * P < U64
  · by_cases h2 : n * P ≤ s.p_pos
    · by_cases h3 : align_down (s.p_pos - n * P) a < s.b_pos
      · simp only [alloc_pages, checked_mul, checked_sub, if_pos h1, if_pos h2, if_pos h3]
        intro h
        simp at h
      · simp only [alloc_pages, checked_mul, checked_sub, if_pos h1, if_pos h2, if_neg h3]
        intro h
        have hp : align_down (s.p_pos - n * P) a = p := by simpa using h
        rw [← hp]
        exact ⟨rfl, h2, Nat.not_lt.mp h3, rfl⟩
    · simp only [alloc_pages, checked_mul, checked_sub, if_pos h1, if_neg h2]
      intro h
      simp at h
  · simp only [alloc_pages, checked_mul, checked_sub, if_neg h1]
    intro h
    simp at h

/-- Each well-conditioned call preserves the specification's state
invariant. -/
theorem Inv_applyOp (P : Nat) (s : EarlyAllocator) (op : Op)
    (hs : Inv s) (hop : GoodOp s op) : Inv (applyOp P s op) := by
  obtain ⟨h1, h2, h3, h4, h5⟩ := hs
  cases op with
  | alloc l =>
    obtain ⟨⟨k, hk, hal⟩, hnw, hcnt⟩ := hop
    have halign : s.b_pos ≤ align_up s.b_pos l.align := by
      rw [hal]
      refine le_align_up_two_pow _ k hk ?_
      rw [hal] at hnw
      exact hnw
    rcases alloc_cases s l with ⟨he, _⟩ | ⟨hc, hov, hfit⟩
    · simp only [applyOp, he]
      exact ⟨h1, h2, h3, h4, h5⟩
    · simp only [applyOp]
      rw [hc]
      refine ⟨le_trans h1 (le_trans halign (Nat.le_add_right _ _)), hfit, h3, ?_, h5⟩
      intro h0
      have h0' : (s.count + 1) % U64 = 0 := h0
      rw [Nat.mod_eq_of_lt hcnt] at h0'
      omega
  | dealloc pos l =>
    simp only [applyOp, dealloc]
    by_cases hc : s.count > 0
    · simp only [if_pos hc]
      by_cases hz : s.count - 1 = 0
      · simp only [if_pos hz]
        exact ⟨le_refl _, le_trans h1 h2, h3, fun _ => rfl, h5⟩
      · simp only [if_neg hz]
        exact ⟨h1, h2, h3, fun c => absurd c hz, h5⟩
    · simp only [if_neg hc]
      exact ⟨h1, h2, h3, h4, h5⟩
  | alloc_pages n a =>
    have hop' : s.page_count + 1 < U64 := hop
    rcases alloc_pages_cases P s n a with hid | ⟨hc, hsub, hge⟩
    · simp only [applyOp]
      rw [hid]
      exact ⟨h1, h2, h3, h4, h5⟩
    · simp only [applyOp]
      rw [hc]
      have had : align_down (s.p_pos - n * P) a ≤ s.p_pos - n * P := align_down_le _ _
      refine ⟨h1, hge, le_trans had (le_trans (Nat.sub_le _ _) h3), h4, ?_⟩
      intro h0
      have h0' : (s.page_count + 1) % U64 = 0 := h0
      rw [Nat.mod_eq_of_lt hop'] at h0'
      omega
  | dealloc_pages pos n =>
    simp only [applyOp, dealloc_pages]
    by_cases hc : s.page_count > 0
    · simp only [if_pos hc]
      by_cases hz : s.page_count - 1 = 0
      · simp only [if_pos hz]
        exact ⟨h1, le_trans h2 h3, le_refl _, h4, fun _ => rfl⟩
      · simp only [if_neg hz]
        exact ⟨h1, h2, h3, h4, fun c => absurd c hz⟩
    · simp only [if_neg hc]
      exact ⟨h1, h2, h3, h4, h5⟩
  | add_memory a b =>
    exact ⟨h1, h2, h3, h4, h5⟩
  | query =>
    exact ⟨h1, h2, h3, h4, h5⟩

/-- The invariant is preserved along any well-conditioned call
sequence. -/
theorem Inv_applyOps (P : Nat) (s : EarlyAllocator) (ops : List Op)
    (hs : Inv s) (hops : GoodOps P s ops) : Inv (applyOps P s ops) := by
  induction ops generalizing s with
  | nil => exact hs
  | cons op ops ih => exact ih _ (Inv_applyOp P s op hs hops.1) hops.2

/-- `init` establishes the invariant whenever `start + size` does not
wrap. -/
theorem Inv_init (start size : Nat) (h : start + size < U64) :
    Inv (init start size) := by
  have hm : (start + size) % U64 = start + size := Nat.mod_eq_of_lt h
  refine ⟨le_refl _, ?_, ?_, fun _ => rfl, fun _ => rfl⟩
  · show start ≤ (start + size) % U64
    rw [hm]
    exact Nat.le_add_right _ _
  · show (start + size) % U64 ≤ (start + size) % U64
    exact le_refl _

/-- C1 (amended): after `init(start, size)` with `start + size` not
overflowing `usize`, and any sequence of `alloc`, `dealloc`,
`alloc_pages`, `dealloc_pages`, `add_memory` and query calls in which
every byte allocation uses a power-of-two alignment whose round-up does
not wrap past `2^64` and both call counters stay below `2^64 - 1`, the
resulting state satisfies `start ≤ b_pos ≤ p_pos ≤ end`,
`count = 0 → b_pos = start`, and `page_count = 0 → p_pos = end`. -/
theorem C1_invariant (PAGE_SIZE start size : Nat) (ops : List Op)
    (h : start + size < U64) (hops : GoodOps PAGE_SIZE (init start size) ops) :
    Inv (applyOps PAGE_SIZE (init start size) ops) :=
  Inv_applyOps _ _ _ (Inv_init start size h) hops

/-- Witness for C1: a six-call sequence from `init(0x1000, 0x2000)`. -/
theorem C1_invariant_witness :
    Inv (applyOps 0x1000 (init 0x1000 0x2000)
      [.alloc ⟨16, 8⟩, .query, .alloc_pages 1 0x1000, .dealloc 0x1000 ⟨16, 8⟩,
        .add_memory 0 0, .dealloc_pages 0x2000 1]) := by
  refine C1_invariant 0x1000 0x1000 0x2000 _ (by decide) ?_
  refine ⟨⟨⟨3, by norm_num, by norm_num⟩, by decide, by decide⟩, ?_⟩
  refine ⟨trivial, ?_⟩
  refine ⟨by unfold GoodOp; decide, ?_⟩
  refine ⟨trivial, ?_⟩
  refine ⟨trivial, ?_⟩
  exact ⟨trivial, trivial⟩

/-- C1 (counterexample to the claim as stated): when `start + size`
wraps around the 64-bit address type, already the empty call sequence
after `init(2^64 - 1, 2)` violates `b_pos ≤ p_pos`. -/
theorem C1_cex_init_overflow :
    ¬ Inv (applyOps 0x1000 (init (2 ^ 64 - 1) 2) []) := by
  decide

/-- C6 (amended): if the cursors are consistent (`b_pos ≤ p_pos <
2^64`) and the power-of-two alignment round-up does not wrap, then a
byte request larger than `available_bytes()` fails with out-of-memory
and leaves the whole state unchanged. -/
theorem C6_oom_request_leaves_state (s : EarlyAllocator) (l : Layout) (k : Nat)
    (hk : k ≤ 64) (hal : l.align = 2 ^ k) (hnw : s.b_pos + l.align ≤ U64)
    (hbp : s.b_pos ≤ s.p_pos) (hp : s.p_pos < U64)
    (hsz : available_bytes s < l.size) :
    alloc s l = (s, .error .NoMemory) := by
  have halign : s.b_pos ≤ align_up s.b_pos l.align := by
    rw [hal]
    refine le_align_up_two_pow _ k hk ?_
    rw [hal] at hnw
    exact hnw
  have hb : s.b_pos < U64 := lt_of_le_of_lt hbp hp
  have hav : available_bytes s = s.p_pos - s.b_pos := by
    unfold available_bytes usub
    have he : s.p_pos + (U64 - s.b_pos) = (s.p_pos - s.b_pos) + U64 := by
      omega
    rw [he, Nat.add_mod_right, Nat.mod_eq_of_lt (by omega)]
  rw [hav] at hsz
  by_cases hov : align_up s.b_pos l.align + l.size < U64
  · have hgt : align_up s.b_pos l.align + l.size > s.p_pos := by omega
    simp only [alloc, checked_add, if_pos hov, if_pos hgt]
  · simp only [alloc, checked_add, if_neg hov]

/-- Witness for C6 at `init(0x1000, 0x1000)` with an oversized
request. -/
theorem C6_oom_request_leaves_state_witness :
    alloc (init 0x1000 0x1000) ⟨0x2000, 8⟩ =
      (init 0x1000 0x1000, .error .NoMemory) :=
  C6_oom_request_leaves_state (init 0x1000 0x1000) ⟨0x2000, 8⟩ 3 (by norm_num)
    (by norm_num) (by decide) (by decide) (by decide) (by decide)

/-- C6 (counterexample to the claim as stated): a reachable state,
`init(3 * 2^62 + 5, 1)`, from which a 2-byte request with alignment
`2^62` exceeds `available_bytes() = 1`, yet `alloc` mutates the state:
the alignment round-up wraps to 0, the commit happens, and only the
final null check fails. -/
theorem C6_cex_wrapping_align :
    available_bytes (init (3 * 2 ^ 62 + 5) 1) < (2 : Nat) ∧
      (alloc (init (3 * 2 ^ 62 + 5) 1) ⟨2, 2 ^ 62⟩).1 ≠ init (3 * 2 ^ 62 + 5) 1 := by
  decide

/-- Any single well-conditioned non-deallocation call moves `b_pos`
only up and `p_pos` only down. -/
theorem applyOp_mono (P : Nat) (s : EarlyAllocator) (op : Op)
    (hop : GoodOp s op) (hnd : isDealloc op = false) :
    s.b_pos ≤ (applyOp P s op).b_pos ∧ (applyOp P s op).p_pos ≤ s.p_pos := by
  cases op with
  | alloc l =>
    obtain ⟨⟨k, hk, hal⟩, hnw, _⟩ := hop
    have halign : s.b_pos ≤ align_up s.b_pos l.align := by
      rw [hal]
      refine le_align_up_two_pow _ k hk ?_
      rw [hal] at hnw
      exact hnw
    rcases alloc_cases s l with ⟨he, _⟩ | ⟨hc, _, _⟩
    · simp only [applyOp, he]
      exact ⟨le_refl _, le_refl _⟩
    · simp only [applyOp]
      rw [hc]
      exact ⟨le_trans halign (Nat.le_add_right _ _), le_refl _⟩
  | dealloc pos l => simp [isDealloc] at hnd
  | alloc_pages n a =>
    rcases alloc_pages_cases P s n a with hid | ⟨hc, hsub, hge⟩
    · simp only [applyOp]
      rw [hid]
      exact ⟨le_refl _, le_refl _⟩
    · simp only [applyOp]
      rw [hc]
      exact ⟨le_refl _, le_trans (align_down_le _ _) (Nat.sub_le _ _)⟩
  | dealloc_pages pos n => simp [isDealloc] at hnd
  | add_memory a b => exact ⟨le_refl _, le_refl _⟩
  | query => exact ⟨le_refl _, le_refl _⟩

/-- Along a well-conditioned, deallocation-free call sequence, `b_pos`
never decreases and `p_pos` never increases. -/
theorem applyOps_mono (P : Nat) (s : EarlyAllocator) (ops : List Op)
    (hops : GoodOps P s ops) (hnd : ∀ op ∈ ops, isDealloc op = false) :
    s.b_pos ≤ (applyOps P s ops).b_pos ∧ (applyOps P s ops).p_pos ≤ s.p_pos := by
  induction ops generalizing s with
  | nil => exact ⟨le_refl _, le_refl _⟩
  | cons op ops ih =>
    have hstep := applyOp_mono P s op hops.1 (hnd op (List.mem_cons_self op ops))
    have hrest :=
      ih (applyOp P s op) hops.2 (fun o ho => hnd o (List.mem_cons_of_mem op ho))
    exact ⟨le_trans hstep.1 hrest.1, le_trans hrest.2 hstep.2⟩

/-- C4 (amended): a successful byte allocation `[a, a+size)` and a
successful page allocation `[p, p + num_pages*PAGE_SIZE)` from the same
allocator never overlap, provided the calls issued between the two
allocations are well-conditioned and contain no deallocation (in
either order of the two allocations). -/
theorem C4_disjoint_ranges (PAGE_SIZE : Nat) :
    (∀ (s : EarlyAllocator) (l : Layout) (mid : List Op) (a num_pages ap p : Nat),
      (alloc s l).2 = .ok a →
      GoodOps PAGE_SIZE (alloc s l).1 mid →
      (∀ op ∈ mid, isDealloc op = false) →
      (alloc_pages PAGE_SIZE (applyOps PAGE_SIZE (alloc s l).1 mid) num_pages ap).2
          = .ok p →
      RangesDisjoint a (a + l.size) p (p + num_pages * PAGE_SIZE)) ∧
    (∀ (s : EarlyAllocator) (num_pages ap p : Nat) (mid : List Op) (l : Layout)
        (a : Nat),
      (alloc_pages PAGE_SIZE s num_pages ap).2 = .ok p →
      GoodOps PAGE_SIZE (alloc_pages PAGE_SIZE s num_pages ap).1 mid →
      (∀ op ∈ mid, isDealloc op = false) →
      (alloc (applyOps PAGE_SIZE (alloc_pages PAGE_SIZE s num_pages ap).1 mid) l).2
          = .ok a →
      RangesDisjoint a (a + l.size) p (p + num_pages * PAGE_SIZE)) := by
  constructor
  · intro s l mid a num_pages ap p hb hg hnd hps
    obtain ⟨-, -, -, hstate⟩ := alloc_ok s l a hb
    have hb1 : (alloc s l).1.b_pos = a + l.size := by rw [hstate]
    have hmono := applyOps_mono PAGE_SIZE (alloc s l).1 mid hg hnd
    obtain ⟨-, -, hple, -⟩ := alloc_pages_ok PAGE_SIZE _ num_pages ap p hps
    refine Or.inl ?_
    calc a + l.size = (alloc s l).1.b_pos := hb1.symm
      _ ≤ (applyOps PAGE_SIZE (alloc s l).1 mid).b_pos := hmono.1
      _ ≤ p := hple
  · intro s num_pages ap p mid l a hps hg hnd hb
    obtain ⟨-, -, -, hstate⟩ := alloc_pages_ok PAGE_SIZE s num_pages ap p hps
    have hp1 : (alloc_pages PAGE_SIZE s num_pages ap).1.p_pos = p := by rw [hstate]
    have hmono :=
      applyOps_mono PAGE_SIZE (alloc_pages PAGE_SIZE s num_pages ap).1 mid hg hnd
    obtain ⟨-, -, hble, -⟩ := alloc_ok _ l a hb
    refine Or.inl ?_
    calc a + l.size
        ≤ (applyOps PAGE_SIZE (alloc_pages PAGE_SIZE s num_pages ap).1 mid).p_pos :=
          hble
      _ ≤ (alloc_pages PAGE_SIZE s num_pages ap).1.p_pos := hmono.2
      _ = p := hp1

/-- Witness for C4: byte allocation `[0x1000, 0x1010)` then page
allocation `[0x2000, 0x3000)` from `init(0x1000, 0x2000)`. -/
theorem C4_disjoint_ranges_witness :
    RangesDisjoint 0x1000 (0x1000 + 16) 0x2000 (0x2000 + 1 * 0x1000) :=
  (C4_disjoint_ranges 0x1000).1 (init 0x1000 0x2000) ⟨16, 8⟩ [] 0x1000 1 0x1000 0x2000
    (by decide) trivial (fun op h => absurd h (List.not_mem_nil op)) (by decide)

/-- C4 (counterexample to the claim as stated): with a deallocation
between the two calls, the byte range `[0x1000, 0x1010)` and the later
page range `[0x1000, 0x3000)` from the same allocator overlap. -/
theorem C4_cex_dealloc_between :
    (alloc (init 0x1000 0x2000) ⟨16, 1⟩).2 = .ok 0x1000 ∧
      (alloc_pages 0x1000
          (dealloc (alloc (init 0x1000 0x2000) ⟨16, 1⟩).1 0x1000 ⟨16, 1⟩) 2 1).2 =
        .ok 0x1000 ∧
      ¬ RangesDisjoint 0x1000 (0x1000 + 16) 0x1000 (0x1000 + 2 * 0x1000) := by
  decide

/-- `alloc` never changes the `start` field. -/
theorem alloc_fst_start (s : EarlyAllocator) (l : Layout) :
    (alloc s l).1.start = s.start := by
  rcases alloc_cases s l with ⟨he, -⟩ | ⟨hc, -, -⟩
  · rw [he]
  · rw [hc]

/-- A successful `alloc` bumps the call counter modulo `2^64`. -/
theorem alloc_ok_count (s : EarlyAllocator) (l : Layout) (a : Nat)
    (h : (alloc s l).2 = .ok a) :
    (alloc s l).1.count = (s.count + 1) % U64 := by
  obtain ⟨-, -, -, hstate⟩ := alloc_ok s l a h
  rw [hstate]

/-- A run of successful byte allocations adds its length to the call
counter (given headroom) and keeps `start`. -/
theorem runAllocs_count (ls : List Layout) (s : EarlyAllocator)
    (hok : AllOk s ls) (hlt : s.count + ls.length < U64) :
    (runAllocs s ls).count = s.count + ls.length ∧
      (runAllocs s ls).start = s.start := by
  induction ls generalizing s with
  | nil => exact ⟨(Nat.add_zero s.count).symm, rfl⟩
  | cons l ls ih =>
    obtain ⟨⟨a, ha⟩, hrest⟩ := hok
    have hlen : (l :: ls).length = ls.length + 1 := rfl
    rw [hlen] at hlt
    have hcmod : (alloc s l).1.count = s.count + 1 := by
      rw [alloc_ok_count s l a ha, Nat.mod_eq_of_lt (by omega)]
    obtain ⟨hc', hs'⟩ := ih (alloc s l).1 hrest (by rw [hcmod]; omega)
    refine ⟨?_, ?_⟩
    · show (runAllocs (alloc s l).1 ls).count = s.count + (l :: ls).length
      rw [hc', hcmod, hlen]
      omega
    · show (runAllocs (alloc s l).1 ls).start = s.start
      rw [hs', alloc_fst_start]

/-- Fewer deallocations than the outstanding count only decrement the
counter: cursors stay put. -/
theorem runDeallocs_under (ps : List (Nat × Layout)) (s : EarlyAllocator)
    (h : ps.length < s.count) :
    runDeallocs s ps = { s with count := s.count - ps.length } := by
  induction ps generalizing s with
  | nil => rfl
  | cons p ps ih =>
    have hlen : (p :: ps).length = ps.length + 1 := rfl
    rw [hlen] at h
    have hz : ¬ (s.count - 1 = 0) := by omega
    have hd : dealloc s p.1 p.2 = { s with count := s.count - 1 } := by
      unfold dealloc
      rw [if_pos (by omega), if_neg hz]
    show runDeallocs (dealloc s p.1 p.2) ps = _
    rw [hd, ih _ (show ps.length < s.count - 1 by omega)]
    have he : s.count - 1 - ps.length = s.count - (p :: ps).length := by
      rw [hlen]
      omega
    rw [he]

/-- Exactly as many deallocations as the outstanding count drain it to
zero and snap the byte cursor back to `start`. -/
theorem runDeallocs_exact (ps : List (Nat × Layout)) (s : EarlyAllocator)
    (h : s.count = ps.length) (hpos : 0 < ps.length) :
    runDeallocs s ps = { s with count := 0, b_pos := s.start } := by
  induction ps generalizing s with
  | nil => simp at hpos
  | cons p ps ih =>
    have hlen : (p :: ps).length = ps.length + 1 := rfl
    rw [hlen] at h
    show runDeallocs (dealloc s p.1 p.2) ps = _
    rcases Nat.eq_zero_or_pos ps.length with h0 | hpos'
    · have hnil : ps = [] := List.length_eq_zero.mp h0
      subst hnil
      have hz : s.count - 1 = 0 := by omega
      have hd : dealloc s p.1 p.2 = { s with count := s.count - 1, b_pos := s.start } := by
        unfold dealloc
        rw [if_pos (by omega), if_pos hz]
      show dealloc s p.1 p.2 = _
      rw [hd, hz]
    · have hz : ¬ (s.count - 1 = 0) := by omega
      have hd : dealloc s p.1 p.2 = { s with count := s.count - 1 } := by
        unfold dealloc
        rw [if_pos (by omega), if_neg hz]
      rw [hd, ih _ (show s.count - 1 = ps.length by omega) hpos']

/-- Wrapping difference of a 64-bit value with itself is zero. -/
theorem usub_self (x : Nat) (h : x ≤ U64) : usub x x = 0 := by
  unfold usub
  have he : x + (U64 - x) = U64 := by omega
  rw [he, Nat.mod_self]

/-- C5 (amended): from a state with no outstanding byte allocations and
`b_pos = start < 2^64`, after `n < 2^64` successful byte allocations
followed by `n` deallocations (arbitrary arguments, hence any order),
`used_bytes() = 0` and `b_pos = start`; any following successful
allocation returns `round_up(start, align)`; and every proper prefix of
the deallocations leaves `b_pos` (hence `used_bytes()`) unchanged. -/
theorem C5_bulk_reclaim (s : EarlyAllocator) (ls : List Layout)
    (ps : List (Nat × Layout))
    (hc0 : s.count = 0) (hb0 : s.b_pos = s.start) (hstart : s.start < U64)
    (hlen : ps.length = ls.length) (hbound : ls.length < U64)
    (hok : AllOk s ls) :
    used_bytes (runDeallocs (runAllocs s ls) ps) = 0 ∧
      (runDeallocs (runAllocs s ls) ps).b_pos = s.start ∧
      (∀ (l : Layout) (a : Nat),
        (alloc (runDeallocs (runAllocs s ls) ps) l).2 = .ok a →
        a = align_up s.start l.align) ∧
      (∀ k, k < ps.length →
        (runDeallocs (runAllocs s ls) (ps.take k)).b_pos = (runAllocs s ls).b_pos) := by
  obtain ⟨hc1, hst1⟩ := runAllocs_count ls s hok (by omega)
  rw [hc0, Nat.zero_add] at hc1
  rcases Nat.eq_zero_or_pos ps.length with h0 | hpos
  · have hlnil : ls = [] := List.length_eq_zero.mp (by omega)
    have hpnil : ps = [] := List.length_eq_zero.mp h0
    subst hlnil
    subst hpnil
    refine ⟨?_, hb0, ?_, ?_⟩
    · show used_bytes s = 0
      unfold used_bytes
      rw [hb0]
      exact usub_self _ (le_of_lt hstart)
    · intro l a ha
      obtain ⟨haeq, -, -, -⟩ := alloc_ok s l a ha
      rw [haeq, hb0]
    · intro k hk
      simp at hk
  · have hfin := runDeallocs_exact ps (runAllocs s ls) (by omega) hpos
    refine ⟨?_, ?_, ?_, ?_⟩
    · rw [hfin]
      show usub (runAllocs s ls).start ((runAllocs s ls).start) = 0
      rw [hst1]
      exact usub_self _ (le_of_lt hstart)
    · rw [hfin]
      show (runAllocs s ls).start = s.start
      exact hst1
    · intro l a ha
      obtain ⟨haeq, -, -, -⟩ := alloc_ok _ l a ha
      rw [haeq, hfin]
      show align_up (runAllocs s ls).start l.align = _
      rw [hst1]
    · intro k hk
      have htk : (ps.take k).length = k := by
        rw [List.length_take]
        omega
      rw [runDeallocs_under (ps.take k) (runAllocs s ls) (by omega)]

/-- Witness for C5: two allocations then two deallocations from
`init(0x1000, 0x2000)`. -/
theorem C5_bulk_reclaim_witness :
    used_bytes (runDeallocs (runAllocs (init 0x1000 0x2000)
        [⟨16, 8⟩, ⟨32, 16⟩]) [(0x1000, ⟨16, 8⟩), (0x1010, ⟨32, 16⟩)]) = 0 ∧
      (runDeallocs (runAllocs (init 0x1000 0x2000)
        [⟨16, 8⟩, ⟨32, 16⟩]) [(0x1000, ⟨16, 8⟩), (0x1010, ⟨32, 16⟩)]).b_pos =
        0x1000 := by
  have h := C5_bulk_reclaim (init 0x1000 0x2000) [⟨16, 8⟩, ⟨32, 16⟩]
    [(0x1000, ⟨16, 8⟩), (0x1010, ⟨32, 16⟩)] (by decide) (by decide) (by decide)
    (by decide) (by decide) ⟨⟨0x1000, by decide⟩, ⟨0x1010, by decide⟩, trivial⟩
  exact ⟨h.1, h.2.1⟩

/-- Unfolding lemma: running a cons of allocations. -/
theorem runAllocs_cons (s : EarlyAllocator) (l : Layout) (ls : List Layout) :
    runAllocs s (l :: ls) = runAllocs (alloc s l).1 ls := rfl

/-- Unfolding lemma: running the empty allocation list. -/
theorem runAllocs_nil (s : EarlyAllocator) : runAllocs s [] = s := rfl

/-- Unfolding lemma: success of a cons of allocations. -/
theorem AllOk_cons (s : EarlyAllocator) (l : Layout) (ls : List Layout) :
    AllOk s (l :: ls) = ((∃ a, (alloc s l).2 = .ok a) ∧ AllOk (alloc s l).1 ls) :=
  rfl

/-- `alloc` in the committing case: all three guards pass, the cursor
and counter move, and the aligned address is returned. -/
theorem alloc_commits (s : EarlyAllocator) (l : Layout)
    (h1 : align_up s.b_pos l.align + l.size < U64)
    (h2 : ¬ (align_up s.b_pos l.align + l.size > s.p_pos))
    (h3 : ¬ (align_up s.b_pos l.align = 0)) :
    alloc s l =
      ({ s with b_pos := align_up s.b_pos l.align + l.size,
                count := (s.count + 1) % U64 }, .ok (align_up s.b_pos l.align)) := by
  simp only [alloc, checked_add, if_pos h1, if_neg h2, if_neg h3]

/-- One zero-size, align-1 allocation step on the state reached in the
C5 counterexample: succeeds at address 2 and only bumps the counter. -/
theorem alloc_rep_step (c : Nat) :
    alloc (repState c) ⟨0, 1⟩ = (repState ((c + 1) % U64), .ok 2) := by
  have hb : (repState c).b_pos = 2 := rfl
  have hal : (Layout.mk 0 1).align = 1 := rfl
  have hsz : (Layout.mk 0 1).size = 0 := rfl
  have hpp : (repState c).p_pos = 3 := rfl
  have ha : align_up 2 1 = 2 := by decide
  have h1 : align_up (repState c).b_pos (Layout.mk 0 1).align + (Layout.mk 0 1).size
      < U64 := by
    rw [hb, hal, hsz, ha, U64_eq]
    norm_num
  have h2 : ¬ (align_up (repState c).b_pos (Layout.mk 0 1).align + (Layout.mk 0 1).size
      > (repState c).p_pos) := by
    rw [hb, hal, hsz, ha, hpp]
    norm_num
  have h3 : ¬ (align_up (repState c).b_pos (Layout.mk 0 1).align = 0) := by
    rw [hb, hal, ha]
    norm_num
  have h := alloc_commits (repState c) ⟨0, 1⟩ h1 h2 h3
  rw [h, hb, hal, hsz, ha]
  norm_num [repState]

/-- Iterating the step of `alloc_rep_step` adds the repetition count to
the call counter modulo `2^64`. -/
theorem runAllocs_rep (k : Nat) : ∀ c : Nat, c < U64 →
    runAllocs (repState c) (List.replicate k ⟨0, 1⟩) =
      repState ((c + k) % U64) := by
  induction k with
  | zero =>
    intro c hc
    rw [List.replicate_zero, runAllocs_nil, Nat.add_zero, Nat.mod_eq_of_lt hc]
  | succ k ih =>
    intro c hc
    have hfst : (alloc (repState c) ⟨0, 1⟩).1 = repState ((c + 1) % U64) := by
      rw [alloc_rep_step c]
    rw [List.replicate_succ, runAllocs_cons, hfst,
      ih ((c + 1) % U64) (Nat.mod_lt _ U64_pos)]
    have he : ((c + 1) % U64 + k) % U64 = (c + (k + 1)) % U64 := by
      rw [Nat.mod_add_mod]
      congr 1
      omega
    rw [he]

/-- Every allocation in the repeated run succeeds. -/
theorem AllOk_rep (k : Nat) : ∀ c : Nat,
    AllOk (repState c) (List.replicate k ⟨0, 1⟩) := by
  induction k with
  | zero => intro c; trivial
  | succ k ih =>
    intro c
    have hfst : (alloc (repState c) ⟨0, 1⟩).1 = repState ((c + 1) % U64) := by
      rw [alloc_rep_step c]
    rw [List.replicate_succ, AllOk_cons, hfst]
    constructor
    · exact ⟨2, by rw [alloc_rep_step c]⟩
    · exact ih ((c + 1) % U64)

/-- Deallocation is a no-op once the counter is zero. -/
theorem runDeallocs_count_zero (ps : List (Nat × Layout)) (s : EarlyAllocator)
    (h : s.count = 0) : runDeallocs s ps = s := by
  induction ps generalizing s with
  | nil => rfl
  | cons p ps ih =>
    have hd : dealloc s p.1 p.2 = s := by
      unfold dealloc
      rw [if_neg (by omega)]
    show runDeallocs (dealloc s p.1 p.2) ps = s
    rw [hd, ih s h]

/-- In the wrap run, every one of the `2^64` allocations succeeds. -/
theorem wrap_run_all_ok :
    AllOk (init 1 2) (⟨1, 1⟩ :: List.replicate (U64 - 1) ⟨0, 1⟩) := by
  have hfirst : alloc (init 1 2) ⟨1, 1⟩ = (repState 1, .ok 1) := by decide
  have hfst : (alloc (init 1 2) ⟨1, 1⟩).1 = repState 1 := by rw [hfirst]
  rw [AllOk_cons, hfst]
  constructor
  · exact ⟨1, by rw [hfirst]⟩
  · exact AllOk_rep (U64 - 1) 1

/-- In the wrap run, the deallocation list matches the allocation list
in length. -/
theorem wrap_run_length :
    (List.replicate U64 ((0 : Nat), (⟨0, 1⟩ : Layout))).length =
      (⟨1, 1⟩ :: List.replicate (U64 - 1) (⟨0, 1⟩ : Layout)).length := by
  rw [List.length_replicate, List.length_cons, List.length_replicate]
  exact (Nat.succ_pred_eq_of_pos U64_pos).symm

/-- In the wrap run, `used_bytes()` is still nonzero after all the
deallocations: the counter wrapped to zero during the allocations, so
every deallocation was a no-op. -/
theorem wrap_run_used_bytes :
    used_bytes
      (runDeallocs
        (runAllocs (init 1 2) (⟨1, 1⟩ :: List.replicate (U64 - 1) ⟨0, 1⟩))
        (List.replicate U64 ((0 : Nat), ⟨0, 1⟩))) ≠ 0 := by
  have hfirst : alloc (init 1 2) ⟨1, 1⟩ = (repState 1, .ok 1) := by decide
  have hfst : (alloc (init 1 2) ⟨1, 1⟩).1 = repState 1 := by rw [hfirst]
  have hone : (1 : Nat) < U64 := by rw [U64_eq]; norm_num
  rw [runAllocs_cons, hfst, runAllocs_rep (U64 - 1) 1 hone]
  have hcnt : (1 + (U64 - 1)) % U64 = 0 := by
    have h1 : 1 + (U64 - 1) = U64 := by
      have := U64_pos
      omega
    rw [h1, Nat.mod_self]
  rw [hcnt, runDeallocs_count_zero _ _ rfl]
  decide

/-- C5 (counterexample to the claim as stated): from `init(1, 2)`, a
sequence of `2^64` successful byte allocations (one of size 1, then
`2^64 - 1` of size 0) wraps the `usize` call counter back to 0, so the
following `2^64` deallocations are all no-ops and `used_bytes()`
remains 1, not 0. -/
theorem C5_cex_counter_wrap :
    (init 1 2).count = 0 ∧ (init 1 2).b_pos = (init 1 2).start ∧
      AllOk (init 1 2) (⟨1, 1⟩ :: List.replicate (U64 - 1) ⟨0, 1⟩) ∧
      (List.replicate U64 ((0 : Nat), (⟨0, 1⟩ : Layout))).length =
        (⟨1, 1⟩ :: List.replicate (U64 - 1) (⟨0, 1⟩ : Layout)).length ∧
      used_bytes
        (runDeallocs
          (runAllocs (init 1 2) (⟨1, 1⟩ :: List.replicate (U64 - 1) ⟨0, 1⟩))
          (List.replicate U64 ((0 : Nat), ⟨0, 1⟩))) ≠ 0 :=
  ⟨by decide, by decide, wrap_run_all_ok, wrap_run_length, wrap_run_used_bytes⟩

end BumpAllocator
